import Mathlib

/-!
Verification of the badge-compositing engine of the letter-icon composer
(`modifier.js`, current engine version, plus the historical variant where a
claim refers to it, and the `MODIFIERS` table of the core module).

Modelling conventions:
* JavaScript numbers are modelled as exact rationals; `NaN` is modelled as
  `none` in the type `JsNum := Option ℚ`.  Division by zero (which yields
  `Infinity` in JavaScript) is also collapsed to `none`; every theorem below
  restricts itself, through its hypotheses, to inputs on which no `NaN` or
  `Infinity` arises, so this collapse never backs a proved statement.
* Strings are Lean `String`s; the regular expressions of the source are
  implemented as explicit scanners over `List Char` with the usual leftmost
  match semantics (each regex there is deterministic because its repeated
  character class excludes the closing delimiter).
* `Number(tok)` and `parseFloat(s)` are modelled for plain decimal literals
  (optional sign, digits, optional fraction); exponent, hexadecimal and
  `Infinity` forms return `none`.  All concrete inputs used in theorems are
  plain decimals.
* The Paper.js geometry is opaque to the compositing logic: the code only
  consumes `pathData` and the `className` test for compound paths, so a path
  is modelled as that pair, and the geometric operations (`unite`, `subtract`,
  `offsetStroke`, path construction, transform application) are oracle
  parameters; operations the source wraps in `try` return `Except`.
* The DOM is modelled as an element tree (tag, attribute list, children);
  text nodes do not participate in the compositing code and are omitted.
-/

namespace IconComposer

/-! ### Character and string utilities -/

/-- Whitespace characters recognised by the scanners (the ASCII part of the
regex class used by the source's split and trim operations). -/
def isWsChar (c : Char) : Bool :=
  c = ' ' || c = '\t' || c = '\n' || c = '\r' || c = Char.ofNat 11 || c = Char.ofNat 12

/-- Separator class of the source's `split` regex: whitespace or comma. -/
def isSepChar (c : Char) : Bool := isWsChar c || c = ','

/-- Either XML attribute-value quote character. -/
def isQuoteChar (c : Char) : Bool := c = '"' || c = '\''

/-- Word characters, for the word-boundary assertion of the width/height
attribute regexes. -/
def isWordChar (c : Char) : Bool := c.isAlpha || c.isDigit || c = '_'

/-- Trim leading and trailing whitespace, as `String.prototype.trim`. -/
def trimWs (l : List Char) : List Char :=
  ((l.dropWhile (fun c => isWsChar c)).reverse.dropWhile (fun c => isWsChar c)).reverse

/-- Worker for `splitSepRuns`: `skipping` records whether we are inside a
run of separators, `acc` holds the current token reversed. -/
def splitRunsAux (skipping : Bool) (acc : List Char) : List Char → List (List Char)
  | [] => if skipping then [[]] else [acc.reverse]
  | c :: cs =>
    if isSepChar c then
      if skipping then splitRunsAux true [] cs
      else acc.reverse :: splitRunsAux true [] cs
    else
      if skipping then splitRunsAux false [c] cs
      else splitRunsAux false (c :: acc) cs

/-- Model of the source's `split` on runs of whitespace/comma separators:
a leading separator run yields a leading empty token and a trailing run a
trailing empty token, as in JavaScript. -/
def splitSepRuns (l : List Char) : List (List Char) := splitRunsAux false [] l

/-- Numeric value of a digit list, most significant first. -/
def natOfDigits (l : List Char) : Nat :=
  l.foldl (fun a c => a * 10 + (c.toNat - 48)) 0

/-! ### JavaScript number model -/

/-- A JavaScript number that may be `NaN`, modelled as an optional rational. -/
abbrev JsNum := Option ℚ

/-- NaN-propagating addition. -/
def jadd : JsNum → JsNum → JsNum
  | some a, some b => some (a + b)
  | _, _ => none

/-- NaN-propagating subtraction. -/
def jsub : JsNum → JsNum → JsNum
  | some a, some b => some (a - b)
  | _, _ => none

/-- NaN-propagating multiplication. -/
def jmul : JsNum → JsNum → JsNum
  | some a, some b => some (a * b)
  | _, _ => none

/-- NaN-propagating division; division by zero (JavaScript `Infinity`) is
collapsed to `none` and excluded by the hypotheses of every theorem. -/
def jdiv : JsNum → JsNum → JsNum
  | some a, some b => if b = 0 then none else some (a / b)
  | _, _ => none

/-- Model of `Math.min` on two values (`NaN` absorbs, as in JavaScript). -/
def jmin : JsNum → JsNum → JsNum
  | some a, some b => some (min a b)
  | _, _ => none

/-- Comparison `x > 0` as used by the viewBox validation (`NaN > 0` is false). -/
def jgtZero : JsNum → Bool
  | some a => decide (0 < a)
  | none => false

/-- Model of `Number(tok)` on a token produced by the separator split: empty
token gives `0`; otherwise an optional sign, integer digits and an optional
fraction; anything else (exponent, hex, `Infinity`, garbage) gives `NaN`. -/
def jsNumberTok (t : List Char) : JsNum :=
  match t with
  | [] => some 0
  | _ =>
    let sgn : ℚ := match t with
      | '-' :: _ => -1
      | _ => 1
    let rest : List Char := match t with
      | '-' :: r => r
      | '+' :: r => r
      | r => r
    let ip := rest.takeWhile (fun c => c.isDigit)
    let rest2 := rest.dropWhile (fun c => c.isDigit)
    match rest2 with
    | [] => if ip.isEmpty then none else some (sgn * (natOfDigits ip : ℚ))
    | '.' :: fr =>
      let fp := fr.takeWhile (fun c => c.isDigit)
      let rest3 := fr.dropWhile (fun c => c.isDigit)
      if ¬ rest3.isEmpty then none
      else if ip.isEmpty && fp.isEmpty then none
      else some (sgn * ((natOfDigits ip : ℚ) + (natOfDigits fp : ℚ) / (10 : ℚ) ^ fp.length))
    | _ => none

/-- Model of `parseFloat(s)`: longest prefix of the form sign, digits,
optional fraction; `NaN` when no digit is consumed.  Exponent forms are not
modelled (no concrete input below uses them). -/
def jsParseFloatQ (t : List Char) : JsNum :=
  let sgn : ℚ := match t with
    | '-' :: _ => -1
    | _ => 1
  let rest : List Char := match t with
    | '-' :: r => r
    | '+' :: r => r
    | r => r
  let ip := rest.takeWhile (fun c => c.isDigit)
  let rest2 := rest.dropWhile (fun c => c.isDigit)
  let fp : List Char := match rest2 with
    | '.' :: fr => fr.takeWhile (fun c => c.isDigit)
    | _ => []
  if ip.isEmpty && fp.isEmpty then none
  else some (sgn * ((natOfDigits ip : ℚ) + (natOfDigits fp : ℚ) / (10 : ℚ) ^ fp.length))

/-! ### Regex scanners for the attribute extraction of `computeBadgePlacement` -/

/-- Strip the literal pattern `pat` from the head of `l`. -/
def dropPat : List Char → List Char → Option (List Char)
  | [], l => some l
  | _ :: _, [] => none
  | p :: ps, c :: cs => if c = p then dropPat ps cs else none

/-- Strip the literal pattern `pat` case-insensitively from the head of `l`. -/
def dropPatCI : List Char → List Char → Option (List Char)
  | [], l => some l
  | _ :: _, [] => none
  | p :: ps, c :: cs => if c.toLower = p.toLower then dropPatCI ps cs else none

/-- Leftmost-match scanner: try `tryAt` at every position, with the previous
character available for word-boundary tests. -/
def scanFirst {α : Type} (tryAt : Option Char → List Char → Option α) :
    Option Char → List Char → Option α
  | prev, [] => tryAt prev []
  | prev, c :: cs =>
    match tryAt prev (c :: cs) with
    | some a => some a
    | none => scanFirst tryAt (some c) cs

/-- Match attempt for `viewBox=["']([^"']+)["']` at one position; returns the
captured (nonempty) attribute value. -/
def tryViewBoxAt (_ : Option Char) (l : List Char) : Option (List Char) :=
  match dropPat ("viewBox=".data) l with
  | none => none
  | some r1 =>
    match r1 with
    | [] => none
    | q :: rest =>
      if isQuoteChar q then
        let body := rest.takeWhile (fun c => ¬ isQuoteChar c)
        let rest2 := rest.dropWhile (fun c => ¬ isQuoteChar c)
        if body.isEmpty then none
        else
          match rest2 with
          | q2 :: _ => if isQuoteChar q2 then some body else none
          | [] => none
      else none

/-- First match of the viewBox attribute regex, as `badgeSvg.match(...)`. -/
def matchViewBoxAttr (l : List Char) : Option (List Char) :=
  scanFirst tryViewBoxAt none l

/-- Match attempt for `\bNAME=["']([0-9.]+)["']` at one position. -/
def tryNumAttrAt (name : List Char) (prev : Option Char) (l : List Char) :
    Option (List Char) :=
  if (match prev with | some c => isWordChar c | none => false) then none
  else
    match dropPat name l with
    | none => none
    | some r1 =>
      match r1 with
      | [] => none
      | q :: rest =>
        if isQuoteChar q then
          let body := rest.takeWhile (fun c => c.isDigit || c = '.')
          let rest2 := rest.dropWhile (fun c => c.isDigit || c = '.')
          if body.isEmpty then none
          else
            match rest2 with
            | q2 :: _ => if isQuoteChar q2 then some body else none
            | [] => none
        else none

/-- First match of the `width` attribute regex. -/
def matchWidthAttr (l : List Char) : Option (List Char) :=
  scanFirst (tryNumAttrAt ("width=".data)) none l

/-- First match of the `height` attribute regex. -/
def matchHeightAttr (l : List Char) : Option (List Char) :=
  scanFirst (tryNumAttrAt ("height=".data)) none l

/-- Split at the last case-insensitive occurrence of `pat`, returning the
text before the occurrence and the text after it. -/
def splitLastCI (pat : List Char) : List Char → Option (List Char × List Char)
  | [] => none
  | c :: cs =>
    match splitLastCI pat cs with
    | some (p, r) => some (c :: p, r)
    | none =>
      match dropPatCI pat (c :: cs) with
      | some rest => some ([], rest)
      | none => none

/-- Match attempt for the inner-content regex at one position: case-insensitive
`<svg`, any non-`>` run, `>`, then a greedy capture up to the last `</svg>`. -/
def tryInnerAt (_ : Option Char) (l : List Char) : Option (List Char) :=
  match dropPatCI ("<svg".data) l with
  | none => none
  | some r1 =>
    match r1.dropWhile (fun c => c ≠ '>') with
    | _ :: rest =>
      match splitLastCI ("</svg>".data) rest with
      | some (body, _) => some body
      | none => none
    | [] => none

/-- Extraction of the badge's inner content between its outer wrapper tags,
trimmed; empty when the wrapper regex does not match. -/
def extractInner (b : String) : String :=
  match scanFirst tryInnerAt none b.data with
  | some body => String.mk (trimWs body)
  | none => ""

/-! ### Badge placement (`computeBadgePlacement`, modifier.js lines 25–55) -/

/-- Native badge dimensions as selected by `computeBadgePlacement`. -/
structure Dims where
  minX : JsNum
  minY : JsNum
  badgeW : JsNum
  badgeH : JsNum
deriving DecidableEq

/-- Default dimensions: origin 0,0 and a 16×16 unit badge. -/
def defaultDims : Dims := ⟨some 0, some 0, some 16, some 16⟩

/-- Dimension-extraction step of `computeBadgePlacement` (lines 26–39): the
viewBox attribute wins when its (nonempty) value has exactly four numbers with
positive width and height; only when the viewBox regex finds no match are the
explicit width/height attributes consulted, each defaulting to 16. -/
def computeBadgeDims (badgeSvg : String) : Dims :=
  match matchViewBoxAttr badgeSvg.data with
  | some vb =>
    let parts := (splitSepRuns (trimWs vb)).map jsNumberTok
    if parts.length = 4 then
      if jgtZero (parts.getD 2 none) && jgtZero (parts.getD 3 none) then
        ⟨parts.getD 0 none, parts.getD 1 none, parts.getD 2 none, parts.getD 3 none⟩
      else defaultDims
    else defaultDims
  | none =>
    let w : JsNum := match matchWidthAttr badgeSvg.data with
      | some ws => jsParseFloatQ ws
      | none => some 16
    let h : JsNum := match matchHeightAttr badgeSvg.data with
      | some hs => jsParseFloatQ hs
      | none => some 16
    ⟨some 0, some 0, w, h⟩

/-- Result of `computeBadgePlacement`. -/
structure Placement where
  tx : JsNum
  ty : JsNum
  scale : JsNum
  inner : String
  minX : JsNum
  minY : JsNum
  badgeW : JsNum
  badgeH : JsNum
deriving DecidableEq

/-- Model of `computeBadgePlacement(badgeSvg, viewBoxSize, xOff, yOff,
userScale)` (lines 25–55): target size is `viewBoxSize * 0.375`, the fit
scale is the minimum of the per-axis ratios, the final scale multiplies in
the user scale, and the translation aligns the badge's bottom-right corner
with the canvas corner before adding the user offset. -/
def computeBadgePlacement (badgeSvg : String) (viewBoxSize xOff yOff userScale : ℚ) :
    Placement :=
  let d := computeBadgeDims badgeSvg
  let targetSize : ℚ := viewBoxSize * (3 / 8)
  let fitScale := jmin (jdiv (some targetSize) d.badgeW) (jdiv (some targetSize) d.badgeH)
  let scale := jmul fitScale (some userScale)
  let tx := jadd (jsub (some viewBoxSize) (jmul (jadd d.minX d.badgeW) scale)) (some xOff)
  let ty := jadd (jsub (some viewBoxSize) (jmul (jadd d.minY d.badgeH) scale)) (some yOff)
  { tx := tx, ty := ty, scale := scale, inner := extractInner badgeSvg,
    minX := d.minX, minY := d.minY, badgeW := d.badgeW, badgeH := d.badgeH }

/-! ### Opaque geometry values

The compositing code observes a Paper.js path only through `pathData` and the
`className === 'CompoundPath'` test, so a path is modelled as that pair. -/

/-- A geometry-engine path as observed by the compositing code. -/
structure PPath where
  pathData : String
  compound : Bool
deriving DecidableEq

/-- Options record passed to `applyModifier` (all fields optional, as the
JavaScript `opts` object). -/
structure Opts where
  customBadgeSvg : Option String
  badgeXOffset : Option ℚ
  badgeYOffset : Option ℚ
  badgeScale : Option ℚ
  badgeGap : Option ℚ

/-- Keys of the `MODIFIERS` table of the core module. -/
def MODIFIERS_KEYS : List String := ["none", "custom"]

/-! ### String surgery used by the clipPath fallback -/

/-- Match attempt for the open-tag regex `(<svg[^>]*>)` (case-sensitive) at
one position: returns the matched tag and the rest. -/
def tryOpenTagAt (l : List Char) : Option (List Char × List Char) :=
  match dropPat ("<svg".data) l with
  | none => none
  | some r1 =>
    let mid := r1.takeWhile (fun c => c ≠ '>')
    match r1.dropWhile (fun c => c ≠ '>') with
    | ch :: rest => some ("<svg".data ++ mid ++ [ch], rest)
    | [] => none

/-- Leftmost-match scanner returning the text before the match, the match and
the text after it. -/
def scanSplit (tryAt : List Char → Option (List Char × List Char)) :
    List Char → Option (List Char × List Char × List Char)
  | [] =>
    match tryAt [] with
    | some (m, r) => some ([], m, r)
    | none => none
  | c :: cs =>
    match tryAt (c :: cs) with
    | some (m, r) => some ([], m, r)
    | none =>
      match scanSplit tryAt cs with
      | some (p, m, r) => some (c :: p, m, r)
      | none => none

/-- Split around the first `<svg ...>` open tag. -/
def splitAtSvgOpen (l : List Char) : Option (List Char × List Char × List Char) :=
  scanSplit tryOpenTagAt l

/-- Split around the first occurrence of the literal pattern `pat`. -/
def splitFirstSub (pat : List Char) : List Char → Option (List Char × List Char)
  | [] => none
  | c :: cs =>
    match dropPat pat (c :: cs) with
    | some rest => some ([], rest)
    | none =>
      match splitFirstSub pat cs with
      | some (p, r) => some (c :: p, r)
      | none => none

/-- Model of `svgString.replace(/(<svg[^>]*>)/, '$1' + ins)`: insert `ins`
after the first open tag (dollar patterns inside `ins` are not interpreted;
no concrete input below contains one). -/
def replaceSvgOpen (s ins : String) : String :=
  match splitAtSvgOpen s.data with
  | some (p, m, r) => String.mk (p ++ m ++ ins.data ++ r)
  | none => s

/-- Model of `s.replace(pat, repl)` with a plain-string pattern: replace the
first occurrence only. -/
def replaceFirstStr (s pat repl : String) : String :=
  match splitFirstSub pat.data s.data with
  | some (p, r) => String.mk (p ++ repl.data ++ r)
  | none => s

/-! ### ClipPath-only fallback (`applyModifierClipPath`, lines 59–92) -/

/-- Badge bounding rectangle in output coordinates, expanded by the gap
(lines 78–81): fields are the source's `bx`, `by`, `bw`, `bh`. -/
structure KeepRect where
  kx : JsNum
  ky : JsNum
  kw : JsNum
  kh : JsNum
deriving DecidableEq

/-- Computation of the fallback's keep rectangle from the placement and gap
(lines 78–81 of the source). -/
def clipKeepRect (p : Placement) (gap : ℚ) : KeepRect :=
  { kx := jsub (jadd p.tx (jmul p.minX p.scale)) (some gap)
    ky := jsub (jadd p.ty (jmul p.minY p.scale)) (some gap)
    kw := jadd (jmul p.badgeW p.scale) (some (gap * 2))
    kh := jadd (jmul p.badgeH p.scale) (some (gap * 2)) }

/-- Keep-region path data of the fallback (line 84): the full canvas
rectangle followed by the badge rectangle as a second subpath.  `fmt` is the
oracle for JavaScript number-to-string conversion. -/
def keepPathStr (fmt : JsNum → String) (s : ℚ) (r : KeepRect) : String :=
  "M0 0H" ++ fmt (some s) ++ "V" ++ fmt (some s) ++ "H0Z M" ++ fmt r.kx ++ " " ++
    fmt r.ky ++ "H" ++ fmt (jadd r.kx r.kw) ++ "V" ++ fmt (jadd r.ky r.kh) ++
    "H" ++ fmt r.kx ++ "Z"

/-- Badge rendering markup (line 86 and, identically, line 437): a group with
the placement translate and scale around the badge's inner content.  `fmt3`
and `fmt4` are the oracles for `+v.toFixed(3)` and `+v.toFixed(4)`
stringification. -/
def badgeMarkupStr (fmt3 fmt4 : JsNum → String) (p : Placement) : String :=
  "<g transform=\"translate(" ++ fmt3 p.tx ++ " " ++ fmt3 p.ty ++ ") scale(" ++
    fmt4 p.scale ++ ")\">" ++ p.inner ++ "</g>"

/-- Clip definition markup of the fallback (line 88), declaring the keep
region with evenodd winding. -/
def clipDefStr (keepPath : String) : String :=
  "<defs><clipPath id=\"nc\"><path d=\"" ++ keepPath ++
    "\" fill-rule=\"evenodd\"/></clipPath></defs>"

/-- The full insertion placed after the open tag by the fallback (line 89):
the clip definition followed by the opening of the clipped wrapper group. -/
def clipIns (fmt : JsNum → String) (s : ℚ) (pl : Placement) (gap : ℚ) : String :=
  clipDefStr (keepPathStr fmt s (clipKeepRect pl gap)) ++ "<g clip-path=\"url(#nc)\">"

/-- Model of `applyModifierClipPath` (lines 59–92): guard cascade, placement,
keep rectangle, then string surgery inserting the clip definition and the
wrapping clipped group after the open tag and the badge markup before the
closing tag. -/
def applyModifierClipPath (fmt fmt3 fmt4 : JsNum → String) (svgString : String)
    (modifierKey : Option String) (viewBoxSize : ℚ) (opts : Opts) : String :=
  match modifierKey with
  | none => svgString
  | some key =>
    if key = "" || key = "none" then svgString
    else if ¬ key ∈ MODIFIERS_KEYS then svgString
    else if key ≠ "custom" then svgString
    else
      match opts.customBadgeSvg with
      | none => svgString
      | some b =>
        if b = "" then svgString
        else
          let placement := computeBadgePlacement b viewBoxSize
            (opts.badgeXOffset.getD 0) (opts.badgeYOffset.getD 0)
            (opts.badgeScale.getD 1)
          if placement.inner = "" then svgString
          else
            let gap : ℚ := opts.badgeGap.getD (1 / 2)
            let badgeMarkup := badgeMarkupStr fmt3 fmt4 placement
            let s1 := replaceSvgOpen svgString (clipIns fmt viewBoxSize placement gap)
            replaceFirstStr s1 "</svg>" ("</g>" ++ badgeMarkup ++ "</svg>")

/-! ### Full-engine guard cascade (`applyModifier`, lines 269–291) -/

/-- Model of the full engine's `applyModifier` up to and including the notch
guard (lines 269–291).  `notchOf` is the `importBadgeSilhouette` oracle (its
`null` result is `none`) and `restProcess` stands for the DOM processing and
serialization that follow once every guard has passed; every identity claim
below holds for an arbitrary `restProcess`. -/
def applyModifier (notchOf : String → JsNum → JsNum → JsNum → ℚ → Option PPath)
    (restProcess : String → Placement → PPath → String)
    (svgString : String) (modifierKey : Option String) (viewBoxSize : ℚ)
    (opts : Opts) : String :=
  match modifierKey with
  | none => svgString
  | some key =>
    if key = "" || key = "none" then svgString
    else if ¬ key ∈ MODIFIERS_KEYS then svgString
    else if key ≠ "custom" then svgString
    else
      match opts.customBadgeSvg with
      | none => svgString
      | some b =>
        if b = "" then svgString
        else
          let placement := computeBadgePlacement b viewBoxSize
            (opts.badgeXOffset.getD 0) (opts.badgeYOffset.getD 0)
            (opts.badgeScale.getD 1)
          if placement.inner = "" then svgString
          else
            let gap : ℚ := opts.badgeGap.getD (1 / 2)
            match notchOf b placement.tx placement.ty placement.scale gap with
            | none => svgString
            | some notch => restProcess svgString placement notch

/-! ### DOM model -/

/-- An element node: tag name, attribute list in document order, children.
Text nodes play no role in the compositing code and are omitted. -/
inductive Elem where
  | mk : String → List (String × String) → List Elem → Elem

/-- Tag name of an element. -/
def Elem.tag : Elem → String
  | .mk t _ _ => t

/-- Attribute list of an element. -/
def Elem.attrs : Elem → List (String × String)
  | .mk _ a _ => a

/-- Children of an element. -/
def Elem.children : Elem → List Elem
  | .mk _ _ c => c

/-- First binding of an attribute name (XML attributes are unique). -/
def lookupAttr : List (String × String) → String → Option String
  | [], _ => none
  | (a, v) :: r, k => if a = k then some v else lookupAttr r k

/-- Model of `getAttribute` (absent attribute is `null`). -/
def Elem.getAttr (e : Elem) (k : String) : Option String := lookupAttr e.attrs k

/-- Overwrite-in-place attribute update, appending when absent, as
`setAttribute`. -/
def setAttrList (k v : String) : List (String × String) → List (String × String)
  | [] => [(k, v)]
  | (a, w) :: r => if a = k then (k, v) :: r else (a, w) :: setAttrList k v r

/-- Model of `setAttribute`. -/
def Elem.setAttr (e : Elem) (k v : String) : Elem :=
  .mk e.tag (setAttrList k v e.attrs) e.children

/-- Remove an attribute (used only in statements, to compare an output
element with its source modulo one attribute). -/
def Elem.eraseAttr (e : Elem) (k : String) : Elem :=
  .mk e.tag (e.attrs.filter (fun p => decide (p.1 ≠ k))) e.children

/-- Lowercasing helper for tag names (`tagName.toLowerCase()`), written over
the character list so that it evaluates inside the kernel. -/
def lowerStr (s : String) : String := String.mk (s.data.map Char.toLower)

/-! ### Geometry oracle -/

/-- The geometry capability consumed by the compositor.  Path construction
and transform application always produce a value in Paper.js; `offsetStroke`
may return `null` (the `none` inside) and, like `subtract`, may throw (the
`Except.error`). -/
structure GeomOps where
  toPath : Elem → PPath
  applyT : PPath → String → PPath
  offsetStroke : PPath → ℚ → String → String → Except Unit (Option PPath)
  subtractP : PPath → PPath → Except Unit PPath
  rectPath : ℚ → ℚ → ℚ → ℚ → PPath

/-- Tag dispatch of `svgElToPaperPath` (lines 133–176): recognised shape tags
produce a path, a `path` element needs a nonempty `d`, anything else is
`null`.  The geometric construction itself, including the element's own
transform attribute, is the `toPath` oracle. -/
def svgElToPaperPath (G : GeomOps) (el : Elem) : Option PPath :=
  let tag := lowerStr el.tag
  if tag = "circle" || tag = "rect" || tag = "ellipse" || tag = "polygon" ||
      tag = "polyline" || tag = "line" then
    some (G.toPath el)
  else if tag = "path" then
    match el.getAttr "d" with
    | some d => if d = "" then none else some (G.toPath el)
    | none => none
  else none

/-! ### Boolean Compositor (`processEl`, lines 321–431) -/

/-- Style attributes considered for carry-over (lines 266–267). -/
def STYLE_ATTRS : List String :=
  ["fill", "stroke", "stroke-width", "fill-rule", "clip-rule",
   "stroke-linecap", "stroke-linejoin", "stroke-dasharray", "opacity"]

/-- Attribute carry-over loop of the compositor (lines 367–371 and 394–398):
every `STYLE_ATTRS` entry except `stroke`, `stroke-width` and `stroke-*` is
copied from the source element when present and nonempty. -/
def copyStyleAttrs (src : Elem) (dst : Elem) : Elem :=
  STYLE_ATTRS.foldl (fun acc a =>
    if a = "stroke" || a = "stroke-width" || "stroke-".data.isPrefixOf a.data then acc
    else
      match src.getAttr a with
      | some v => if v ≠ "" then acc.setAttr a v else acc
      | none => acc) dst

/-- Construction of the replacement fill path element (lines 365–374 and
391–400): path data from the boolean result, carried style attributes, and an
explicit evenodd fill-rule exactly when the result is a compound path. -/
def mkFillEl (src : Elem) (r : PPath) : Elem :=
  let e := (Elem.mk "path" [] []).setAttr "d" r.pathData
  let e := copyStyleAttrs src e
  if r.compound then e.setAttr "fill-rule" "evenodd" else e

/-- Construction of the replacement stroke-ring path element (lines 381–385):
path data, fill set to the source's stroke colour, and an explicit evenodd
fill-rule exactly when the result is a compound path. -/
def mkStrokeEl (strokeColor : String) (r : PPath) : Elem :=
  let e := ((Elem.mk "path" [] []).setAttr "d" r.pathData).setAttr "fill" strokeColor
  if r.compound then e.setAttr "fill-rule" "evenodd" else e

/-- Stroke width of an element: `parseFloat(attr) || 0` (line 333). -/
def strokeWidthOf (el : Elem) : ℚ :=
  match el.getAttr "stroke-width" with
  | some sws => (jsParseFloatQ sws.data).getD 0
  | none => 0

/-- The `try` block of `processEl` for one non-group element (lines 330–402):
`none` when the element yields no path (the element then stays untouched);
otherwise the caught-or-successful outcome, a success carrying the optional
replacement fill and stroke elements. -/
def processLeafCore (G : GeomOps) (notch : PPath) (el : Elem)
    (parentT : Option String) : Option (Except Unit (Option Elem × Option Elem)) :=
  let isFillNone := el.getAttr "fill" = some "none"
  let strokeColor := (el.getAttr "stroke").getD ""
  let sw := strokeWidthOf el
  let hasStroke := strokeColor ≠ "" ∧ strokeColor ≠ "none" ∧ 0 < sw
  match svgElToPaperPath G el with
  | none => none
  | some pp0 =>
    let pp := match parentT with
      | some t => if t ≠ "" then G.applyT pp0 t else pp0
      | none => pp0
    some (do
      if hasStroke then
        let joinStyle := if el.getAttr "stroke-linejoin" = some "round" then "round" else "miter"
        let capStyle := if el.getAttr "stroke-linecap" = some "round" then "round" else "butt"
        let so ← G.offsetStroke pp (sw / 2) joinStyle capStyle
        match so with
        | some strokeOutline => do
          let fillEl ← if ¬ isFillNone then do
              let fillResult ← G.subtractP pp notch
              pure (some (mkFillEl el fillResult))
            else pure (none : Option Elem)
          let ringResult ← G.subtractP strokeOutline notch
          pure (fillEl, some (mkStrokeEl strokeColor ringResult))
        | none => pure ((none : Option Elem), (none : Option Elem))
      else if ¬ isFillNone then do
        let fillResult ← G.subtractP pp notch
        pure (some (mkFillEl el fillResult), (none : Option Elem))
      else pure ((none : Option Elem), (none : Option Elem)))

/-- Clip-definition state of one `applyModifier` run: the `clipAdded` flag
and the clipPath definitions added to the document so far.  (The position of
the `defs` container inside the document is not modelled; no claim depends
on it.) -/
structure ClipSt where
  clipAdded : Bool
  added : List Elem

/-- The clipPath definition element built by `ensureClipDef` (lines 313–318):
id `nc` with a single path carrying the keep-region data. -/
def clipDefElem (keepD : String) : Elem :=
  .mk "clipPath" [("id", "nc")] [.mk "path" [("d", keepD)] []]

/-- Model of `ensureClipDef` (lines 305–319): on first call record the
definition, afterwards do nothing. -/
def ensureClipDef (keepD : String) (st : ClipSt) : ClipSt :=
  if st.clipAdded then st
  else { clipAdded := true, added := st.added ++ [clipDefElem keepD] }

/-- The catch handler's effect on the failing element (lines 416–428): set
`clip-path` to `url(#nc)` and, when the element sits inside a group with a
nonempty transform, merge that transform in front of the element's own. -/
def catchFallback (el : Elem) (t : Option String) (inG : Bool) : Elem :=
  let el1 := el.setAttr "clip-path" "url(#nc)"
  if inG then
    match t with
    | some gt =>
      if gt ≠ "" then
        match el1.getAttr "transform" with
        | some ex =>
          if ex ≠ "" then el1.setAttr "transform" (gt ++ " " ++ ex)
          else el1.setAttr "transform" gt
        | none => el1.setAttr "transform" gt
      else el1
    | none => el1
  else el1

/-- Outcome of processing one non-group child of a group: elements hoisted
before the group, elements kept inside it, and the updated clip state. -/
def leafStepInG (G : GeomOps) (notch : PPath) (keepD : String) (t : Option String)
    (st : ClipSt) (el : Elem) : List Elem × List Elem × ClipSt :=
  match processLeafCore G notch el t with
  | none => ([], [el], st)
  | some (Except.ok (f, sE)) => (f.toList ++ sE.toList, [], st)
  | some (Except.error _) => ([catchFallback el t true], [], ensureClipDef keepD st)

mutual

/-- Processing of a group element (the `tag === 'g'` branch of `processEl`,
lines 323–328, together with the insertion-point behaviour of its children):
returns the elements that replace the group at its position — children's
replacement output hoisted before it, then the group itself when any child
remained inside it. -/
def processGroup (G : GeomOps) (notch : PPath) (keepD : String) (st : ClipSt)
    (g : Elem) : List Elem × ClipSt :=
  let t := g.getAttr "transform"
  let r := processGChildren G notch keepD t st g.children
  (r.1 ++ (if r.2.1.isEmpty then [] else [Elem.mk g.tag g.attrs r.2.1]), r.2.2)
termination_by sizeOf g
decreasing_by
  cases g
  all_goals simp [Elem.children]

/-- Processing of the children of a group in document order: a nested group's
whole replacement bundle stays inside at its position, a leaf's replacement
elements are hoisted before the group (success and catch cases) or the leaf
stays (no path). -/
def processGChildren (G : GeomOps) (notch : PPath) (keepD : String)
    (t : Option String) (st : ClipSt) : List Elem → List Elem × List Elem × ClipSt
  | [] => ([], [], st)
  | el :: rest =>
    let step : List Elem × List Elem × ClipSt :=
      if lowerStr el.tag = "g" then
        let r := processGroup G notch keepD st el
        ([], r.1, r.2)
      else leafStepInG G notch keepD t st el
    let r2 := processGChildren G notch keepD t step.2.2 rest
    (step.1 ++ r2.1, step.2.1 ++ r2.2.1, r2.2.2)
termination_by l => sizeOf l
decreasing_by
  all_goals simp
  all_goals omega

end

/-- Processing of one direct child of the svg root (`processEl(child, null)`,
line 433): a group is replaced by its bundle; a leaf is replaced by its fill
and stroke elements on success, stays on a null path, and on a caught failure
stays with only the `clip-path` attribute set (no enclosing group, hence no
transform merge). -/
def processTopChild (G : GeomOps) (notch : PPath) (keepD : String) (st : ClipSt)
    (el : Elem) : List Elem × ClipSt :=
  if lowerStr el.tag = "g" then processGroup G notch keepD st el
  else
    match processLeafCore G notch el none with
    | none => ([el], st)
    | some (Except.ok (f, sE)) => (f.toList ++ sE.toList, st)
    | some (Except.error _) =>
      ([el.setAttr "clip-path" "url(#nc)"], ensureClipDef keepD st)

/-- Left-to-right processing of a list of root children, threading the clip
state. -/
def processTopList (G : GeomOps) (notch : PPath) (keepD : String) (st : ClipSt) :
    List Elem → List Elem × ClipSt
  | [] => ([], st)
  | el :: rest =>
    let r1 := processTopChild G notch keepD st el
    let r2 := processTopList G notch keepD r1.2 rest
    (r1.1 ++ r2.1, r2.2)

/-- One compositor pass over the root's children, starting from the clean
clip state (lines 304 and 433). -/
def processSvgChildren (G : GeomOps) (notch : PPath) (keepD : String)
    (children : List Elem) : List Elem × ClipSt :=
  processTopList G notch keepD ⟨false, []⟩ children

/-- Keep-region precomputation (lines 298–302): the canvas rectangle minus
the notch; this subtraction is outside any `try`, so its failure would
propagate. -/
def computeKeepPathData (G : GeomOps) (s : ℚ) (notch : PPath) :
    Except Unit String := do
  let kr ← G.subtractP (G.rectPath 0 0 s s) notch
  pure kr.pathData

/-- The DOM phase of the full engine: precompute the keep region, then
process every root child; per-element geometric failures are caught inside
`processTopChild`/`processGChildren` and never surface here. -/
def applyModifierDom (G : GeomOps) (s : ℚ) (notch : PPath)
    (rootChildren : List Elem) : Except Unit (List Elem × ClipSt) := do
  let keepD ← computeKeepPathData G s notch
  pure (processSvgChildren G notch keepD rootChildren)

/-! ### Path-set reduction of the Silhouette Builder -/

/-- Worker of the linear union loop. -/
def uniteAllGo {α : Type} (unite : α → α → α) (acc : α) : List α → α
  | [] => acc
  | x :: xs => uniteAllGo unite (unite acc x) xs

/-- The reduction used by `importBadgeSilhouette` (lines 241–248): start from
the first collected path and fold the remaining ones in from the left. -/
def uniteAll {α : Type} (unite : α → α → α) : List α → Option α
  | [] => none
  | p :: rest => some (uniteAllGo unite p rest)

/-- One pairing pass of the tree reduction. -/
def pairRound {α : Type} (unite : α → α → α) : List α → List α
  | a :: b :: rest => unite a b :: pairRound unite rest
  | l => l

/-- Fuel-bounded worker for the tree reduction: each pass on a list of two or
more shapes strictly shrinks it, so `fuel := shapes.length` passes always
suffice and the zero-fuel branch is unreachable from `treeUnite`. -/
def treeUniteGo {α : Type} (unite : α → α → α) : Nat → List α → Option α
  | _, [] => none
  | _, [a] => some a
  | 0, l => l.head?
  | fuel + 1, l => treeUniteGo unite fuel (pairRound unite l)

/-- The pairwise tree reduction `treeUnite` (lines 666–683 of the historical
variant, where it is used only by the circle-buffer offset fallback): while
more than one shape remains, unite adjacent pairs. -/
def treeUnite {α : Type} (unite : α → α → α) (shapes : List α) : Option α :=
  treeUniteGo unite shapes.length shapes

/-- Free magma used to distinguish reduction orders. -/
inductive FreeU where
  | leaf : Nat → FreeU
  | node : FreeU → FreeU → FreeU
deriving DecidableEq

/-! ### Spec-side definition -/

/-- Spec-side definition (it follows the specification's words, for
comparison with the code): the anchor fractions of the nine named anchor
positions, `(ax, ay) ∈ {0, 0.5, 1}²`, with bottom-right `(1, 1)` the stated
default. -/
def specAnchorFractions : List (ℚ × ℚ) :=
  [(0, 0), (1/2, 0), (1, 0), (0, 1/2), (1/2, 1/2), (1, 1/2), (0, 1), (1/2, 1), (1, 1)]

/-- Carry-over semantics of one style attribute: the value is copied when
present and nonempty (the `if (v)` truthiness test of the source). -/
def carryAttr (e : Elem) (a : String) : Option String :=
  match e.getAttr a with
  | some v => if v ≠ "" then some v else none
  | none => none

/-- One conditional attribute copy, the unrolled step of `copyStyleAttrs`. -/
def setIfCarry (src : Elem) (a : String) (e : Elem) : Elem :=
  match src.getAttr a with
  | some v => if v ≠ "" then e.setAttr a v else e
  | none => e

/-- Substring test (used in statements to witness that a piece of markup is
present in a document). -/
def hasSubList (pat l : List Char) : Bool := (splitFirstSub pat l).isSome

/-! ### Concrete fixtures used by witnesses and counterexamples -/

/-- Badge markup with a well-formed viewBox. -/
def badgeFix : String := "<svg viewBox=\"0 0 16 16\"><p/></svg>"

/-- Badge markup without a viewBox but with width/height attributes. -/
def badgeNoVB : String := "<svg width=\"8\" height=\"12.5\"><p/></svg>"

/-- Badge markup with an empty-valued viewBox attribute plus width/height. -/
def badgeEmptyVB : String := "<svg viewBox=\"\" width=\"8\" height=\"8\"><p/></svg>"

/-- Badge markup with no size information at all. -/
def badgeBare : String := "<svg><p/></svg>"

/-- Badge markup with a malformed (three-number) viewBox value plus
width/height attributes. -/
def badgeThreeVB : String := "<svg viewBox=\"0 0 16\" width=\"8\" height=\"9\"><p/></svg>"

/-- Badge markup with no inner content. -/
def badgeNoInner : String := "<svg/>"

/-- A small base-icon document. -/
def svgDoc : String := "<svg a=\"1\">BODY</svg>"

/-- Geometry oracle on which every per-element subtraction fails while the
keep-region subtraction (recognised by the rectangle's path data) succeeds. -/
def failGeom : GeomOps :=
  { toPath := fun _ => ⟨"P", false⟩
    applyT := fun p _ => p
    offsetStroke := fun _ _ _ _ => Except.error ()
    subtractP := fun a _ =>
      if a.pathData = "R" then Except.ok ⟨"K", false⟩ else Except.error ()
    rectPath := fun _ _ _ _ => ⟨"R", false⟩ }

/-- Geometry oracle on which subtraction succeeds with a simple
(non-compound) result. -/
def okGeom : GeomOps :=
  { toPath := fun _ => ⟨"P", false⟩
    applyT := fun p _ => p
    offsetStroke := fun _ _ _ _ => Except.ok none
    subtractP := fun _ _ => Except.ok ⟨"D", false⟩
    rectPath := fun _ _ _ _ => ⟨"R", false⟩ }

/-- A concrete notch path. -/
def notch0 : PPath := ⟨"N", false⟩

/-- A fill-only circle primitive. -/
def circleEl : Elem := .mk "circle" [("cx", "8"), ("cy", "8"), ("r", "6"), ("fill", "red")] []

/-- A transformed group holding the circle. -/
def gEl : Elem := .mk "g" [("transform", "translate(1 2)")] [circleEl]

/-- A fill-only path primitive carrying fill-rule and clip-rule attributes. -/
def ruleEl : Elem :=
  .mk "path" [("d", "M0 0h4v4z"), ("fill", "red"), ("fill-rule", "nonzero"),
    ("clip-rule", "evenodd"), ("opacity", "0.5")] []

/-- A trivial number-formatting oracle for witnesses (the theorems hold for
every formatting oracle). -/
def fmt0 : JsNum → String := fun _ => "0"

/-- Options fixture carrying one badge. -/
def optsOf (b : String) : Opts := ⟨some b, none, none, none, none⟩

/-- Options fixture with no badge. -/
def optsEmpty : Opts := ⟨none, none, none, none, none⟩

/-- Invariant of the clip state: the recorded definitions are empty before
the first `ensureClipDef` call and exactly the single `nc` definition after
it. -/
def stOk (keepD : String) (st : ClipSt) : Prop :=
  st.added = if st.clipAdded then [clipDefElem keepD] else []

/-! ## Helper lemmas -/

theorem lookupAttr_setAttrList (k v k' : String) :
    ∀ l, lookupAttr (setAttrList k v l) k' = if k = k' then some v else lookupAttr l k'
  | [] => by simp [setAttrList, lookupAttr]
  | (a, w) :: r => by
    have ih := lookupAttr_setAttrList k v k' r
    by_cases hak : a = k <;> by_cases hkk : k = k' <;>
      simp_all [setAttrList, lookupAttr]

theorem getAttr_setAttr (e : Elem) (k v k' : String) :
    (e.setAttr k v).getAttr k' = if k = k' then some v else e.getAttr k' := by
  cases e
  exact lookupAttr_setAttrList k v k' _

theorem dropPat_eq : ∀ pat l r, dropPat pat l = some r → l = pat ++ r
  | [], l, r => by
    intro h
    simp only [dropPat, Option.some.injEq] at h
    simp [h]
  | _ :: _, [], r => by
    intro h
    simp [dropPat] at h
  | p :: ps, c :: cs, r => by
    intro h
    simp only [dropPat] at h
    by_cases hc : c = p
    · rw [if_pos hc] at h
      have := dropPat_eq ps cs r h
      simp [hc, this]
    · rw [if_neg hc] at h
      exact absurd h (by simp)

theorem splitFirstSub_eq (pat : List Char) :
    ∀ l u v, splitFirstSub pat l = some (u, v) → l = u ++ pat ++ v
  | [], u, v => by
    intro h
    simp [splitFirstSub] at h
  | c :: cs, u, v => by
    intro h
    simp only [splitFirstSub] at h
    cases hd : dropPat pat (c :: cs) with
    | some rest =>
      rw [hd] at h
      simp only [Option.some.injEq, Prod.mk.injEq] at h
      obtain ⟨hu, hv⟩ := h
      have hcs := dropPat_eq pat (c :: cs) rest hd
      rw [← hu, ← hv]
      simpa using hcs
    | none =>
      rw [hd] at h
      cases hr : splitFirstSub pat cs with
      | some pr =>
        obtain ⟨p1, r1⟩ := pr
        rw [hr] at h
        simp only [Option.some.injEq, Prod.mk.injEq] at h
        obtain ⟨hu, hv⟩ := h
        have hcs := splitFirstSub_eq pat cs p1 r1 hr
        rw [← hu, ← hv]
        simp [hcs]
      | none =>
        rw [hr] at h
        exact absurd h (by simp)

theorem dropWhile_head_false {p : Char → Bool} :
    ∀ (l : List Char) (x : Char) (xs : List Char), l.dropWhile p = x :: xs → p x = false
  | [], x, xs => by simp
  | c :: cs, x, xs => by
    intro h
    by_cases hc : p c
    · rw [List.dropWhile_cons_of_pos hc] at h
      exact dropWhile_head_false cs x xs h
    · rw [List.dropWhile_cons_of_neg hc] at h
      cases h
      simpa using hc

theorem tryOpenTagAt_eq (l m r : List Char) (h : tryOpenTagAt l = some (m, r)) :
    l = m ++ r ∧ ∃ mid, m = "<svg".data ++ mid ++ ['>'] := by
  unfold tryOpenTagAt at h
  cases hd : dropPat ("<svg".data) l with
  | none => rw [hd] at h; simp at h
  | some r1 =>
    rw [hd] at h
    dsimp only at h
    cases hdw : List.dropWhile (fun c => decide (c ≠ '>')) r1 with
    | nil => rw [hdw] at h; simp at h
    | cons ch rest =>
      rw [hdw] at h
      simp only [Option.some.injEq, Prod.mk.injEq] at h
      obtain ⟨hm, hr⟩ := h
      have hch : ch = '>' := by
        have hfalse := dropWhile_head_false r1 ch rest hdw
        simpa using hfalse
      have hsplit : List.takeWhile (fun c => decide (c ≠ '>')) r1 ++ (ch :: rest) = r1 := by
        rw [← hdw]
        exact List.takeWhile_append_dropWhile _ _
      have hl : l = "<svg".data ++ r1 := dropPat_eq _ l r1 hd
      constructor
      · rw [← hm, ← hr, hl]
        conv_lhs => rw [← hsplit]
        simp
      · exact ⟨List.takeWhile (fun c => decide (c ≠ '>')) r1, by rw [← hm, hch]⟩

theorem scanSplit_eq (f : List Char → Option (List Char × List Char))
    (hf : ∀ l m r, f l = some (m, r) → l = m ++ r) :
    ∀ l p m r, scanSplit f l = some (p, m, r) → l = p ++ m ++ r
  | [], p, m, r => by
    intro h
    simp only [scanSplit] at h
    cases hfl : f [] with
    | none => rw [hfl] at h; simp at h
    | some mr =>
      obtain ⟨m1, r1⟩ := mr
      rw [hfl] at h
      simp only [Option.some.injEq, Prod.mk.injEq] at h
      obtain ⟨hp, hm, hr⟩ := h
      rw [← hp, ← hm, ← hr]
      simpa using hf [] m1 r1 hfl
  | c :: cs, p, m, r => by
    intro h
    simp only [scanSplit] at h
    cases hfl : f (c :: cs) with
    | some mr =>
      obtain ⟨m1, r1⟩ := mr
      rw [hfl] at h
      simp only [Option.some.injEq, Prod.mk.injEq] at h
      obtain ⟨hp, hm, hr⟩ := h
      rw [← hp, ← hm, ← hr]
      simpa using hf (c :: cs) m1 r1 hfl
    | none =>
      rw [hfl] at h
      cases hrec : scanSplit f cs with
      | some pmr =>
        obtain ⟨p1, mr1⟩ := pmr
        obtain ⟨m1, r1⟩ := mr1
        rw [hrec] at h
        simp only [Option.some.injEq, Prod.mk.injEq] at h
        obtain ⟨hp, hm, hr⟩ := h
        rw [← hp, ← hm, ← hr]
        have hcs := scanSplit_eq f hf cs p1 m1 r1 hrec
        simp [hcs]
      | none => rw [hrec] at h; simp at h

theorem scanSplit_f (f : List Char → Option (List Char × List Char)) :
    ∀ l p m r, scanSplit f l = some (p, m, r) → ∃ s, f s = some (m, r)
  | [], p, m, r => by
    intro h
    simp only [scanSplit] at h
    cases hfl : f [] with
    | none => rw [hfl] at h; simp at h
    | some mr =>
      obtain ⟨m1, r1⟩ := mr
      rw [hfl] at h
      simp only [Option.some.injEq, Prod.mk.injEq] at h
      obtain ⟨_, hm, hr⟩ := h
      exact ⟨[], by rw [hfl, hm, hr]⟩
  | c :: cs, p, m, r => by
    intro h
    simp only [scanSplit] at h
    cases hfl : f (c :: cs) with
    | some mr =>
      obtain ⟨m1, r1⟩ := mr
      rw [hfl] at h
      simp only [Option.some.injEq, Prod.mk.injEq] at h
      obtain ⟨_, hm, hr⟩ := h
      exact ⟨c :: cs, by rw [hfl, hm, hr]⟩
    | none =>
      rw [hfl] at h
      cases hrec : scanSplit f cs with
      | some pmr =>
        obtain ⟨p1, mr1⟩ := pmr
        obtain ⟨m1, r1⟩ := mr1
        rw [hrec] at h
        simp only [Option.some.injEq, Prod.mk.injEq] at h
        obtain ⟨_, hm, hr⟩ := h
        obtain ⟨s, hsf⟩ := scanSplit_f f cs p1 m1 r1 hrec
        exact ⟨s, by rw [hsf, hm, hr]⟩
      | none => rw [hrec] at h; simp at h

theorem stOk_init (keepD : String) : stOk keepD ⟨false, []⟩ := rfl

theorem stOk_ensure {keepD : String} {st : ClipSt} (h : stOk keepD st) :
    stOk keepD (ensureClipDef keepD st) := by
  obtain ⟨flag, added⟩ := st
  unfold stOk ensureClipDef at *
  cases flag
  · simp_all
  · simp_all

theorem stOk_leafStep {keepD : String} {st : ClipSt} (G : GeomOps) (notch : PPath)
    (t : Option String) (el : Elem) (h : stOk keepD st) :
    stOk keepD (leafStepInG G notch keepD t st el).2.2 := by
  unfold leafStepInG
  cases hpl : processLeafCore G notch el t with
  | none => exact h
  | some res =>
    cases res with
    | ok pr => exact h
    | error e => exact stOk_ensure h

theorem processGroup_eq (G : GeomOps) (notch : PPath) (keepD : String) (st : ClipSt)
    (g : Elem) :
    processGroup G notch keepD st g =
      ((processGChildren G notch keepD (g.getAttr "transform") st g.children).1 ++
        (if (processGChildren G notch keepD (g.getAttr "transform") st g.children).2.1.isEmpty
          then []
          else [Elem.mk g.tag g.attrs
            (processGChildren G notch keepD (g.getAttr "transform") st g.children).2.1]),
       (processGChildren G notch keepD (g.getAttr "transform") st g.children).2.2) := by
  rw [processGroup]

theorem processGChildren_nil (G : GeomOps) (notch : PPath) (keepD : String)
    (t : Option String) (st : ClipSt) :
    processGChildren G notch keepD t st [] = ([], [], st) := by
  rw [processGChildren]

theorem processGChildren_cons_g (G : GeomOps) (notch : PPath) (keepD : String)
    (t : Option String) (st : ClipSt) (el : Elem) (rest : List Elem)
    (hg : lowerStr el.tag = "g") :
    processGChildren G notch keepD t st (el :: rest) =
      ((processGChildren G notch keepD t (processGroup G notch keepD st el).2 rest).1,
       (processGroup G notch keepD st el).1 ++
         (processGChildren G notch keepD t (processGroup G notch keepD st el).2 rest).2.1,
       (processGChildren G notch keepD t (processGroup G notch keepD st el).2 rest).2.2) := by
  rw [processGChildren]
  simp [hg]

theorem dims_badgeFix : computeBadgeDims badgeFix = ⟨some 0, some 0, some 16, some 16⟩ := by
  simp +decide [computeBadgeDims, matchViewBoxAttr, scanFirst, tryViewBoxAt, dropPat,
    splitSepRuns, splitRunsAux, trimWs, jsNumberTok, natOfDigits, isWsChar, isSepChar,
    isQuoteChar, jgtZero, defaultDims, badgeFix]

theorem dims_badgeNoVB : computeBadgeDims badgeNoVB = ⟨some 0, some 0, some 8, some (25/2)⟩ := by
  simp +decide [computeBadgeDims, matchViewBoxAttr, matchWidthAttr, matchHeightAttr,
    scanFirst, tryViewBoxAt, tryNumAttrAt, dropPat, jsParseFloatQ, natOfDigits,
    isWsChar, isSepChar, isQuoteChar, isWordChar, badgeNoVB]
  norm_num

theorem dims_badgeEmptyVB : computeBadgeDims badgeEmptyVB = ⟨some 0, some 0, some 8, some 8⟩ := by
  simp +decide [computeBadgeDims, matchViewBoxAttr, matchWidthAttr, matchHeightAttr,
    scanFirst, tryViewBoxAt, tryNumAttrAt, dropPat, jsParseFloatQ, natOfDigits,
    isWsChar, isSepChar, isQuoteChar, isWordChar, badgeEmptyVB]

theorem dims_badgeBare : computeBadgeDims badgeBare = ⟨some 0, some 0, some 16, some 16⟩ := by
  simp +decide [computeBadgeDims, matchViewBoxAttr, matchWidthAttr, matchHeightAttr,
    scanFirst, tryViewBoxAt, tryNumAttrAt, dropPat, isWsChar, isSepChar,
    isQuoteChar, isWordChar, badgeBare]

theorem dims_badgeThreeVB : computeBadgeDims badgeThreeVB = defaultDims := by
  simp +decide [computeBadgeDims, matchViewBoxAttr, scanFirst, tryViewBoxAt, dropPat,
    splitSepRuns, splitRunsAux, trimWs, jsNumberTok, natOfDigits, isWsChar, isSepChar,
    isQuoteChar, jgtZero, defaultDims, badgeThreeVB]

theorem placementScale_eq (b : String) (vbs xOff yOff us w h : ℚ)
    (hw : (computeBadgeDims b).badgeW = some w) (hh : (computeBadgeDims b).badgeH = some h)
    (hw0 : 0 < w) (hh0 : 0 < h) :
    (computeBadgePlacement b vbs xOff yOff us).scale
      = some (min (vbs * (3/8) / w) (vbs * (3/8) / h) * us) := by
  unfold computeBadgePlacement
  simp only [hw, hh, jdiv, jmin, jmul]
  rw [if_neg hw0.ne', if_neg hh0.ne']

theorem placementTx_eq (b : String) (vbs xOff yOff us mx w sc : ℚ)
    (hmx : (computeBadgeDims b).minX = some mx) (hw : (computeBadgeDims b).badgeW = some w)
    (hsc : (computeBadgePlacement b vbs xOff yOff us).scale = some sc) :
    (computeBadgePlacement b vbs xOff yOff us).tx
      = some (vbs - (mx + w) * sc + xOff) := by
  unfold computeBadgePlacement at hsc ⊢
  simp only at hsc ⊢
  rw [hmx, hw]
  rw [hw] at hsc
  rw [hsc]
  simp only [jadd, jsub, jmul]

theorem placementTy_eq (b : String) (vbs xOff yOff us my h sc : ℚ)
    (hmy : (computeBadgeDims b).minY = some my) (hh : (computeBadgeDims b).badgeH = some h)
    (hsc : (computeBadgePlacement b vbs xOff yOff us).scale = some sc) :
    (computeBadgePlacement b vbs xOff yOff us).ty
      = some (vbs - (my + h) * sc + yOff) := by
  unfold computeBadgePlacement at hsc ⊢
  simp only at hsc ⊢
  rw [hmy, hh]
  rw [hh] at hsc
  rw [hsc]
  simp only [jadd, jsub, jmul]

theorem processGChildren_cons_leaf (G : GeomOps) (notch : PPath) (keepD : String)
    (t : Option String) (st : ClipSt) (el : Elem) (rest : List Elem)
    (hg : ¬ lowerStr el.tag = "g") :
    processGChildren G notch keepD t st (el :: rest) =
      ((leafStepInG G notch keepD t st el).1 ++
         (processGChildren G notch keepD t (leafStepInG G notch keepD t st el).2.2 rest).1,
       (leafStepInG G notch keepD t st el).2.1 ++
         (processGChildren G notch keepD t (leafStepInG G notch keepD t st el).2.2 rest).2.1,
       (processGChildren G notch keepD t (leafStepInG G notch keepD t st el).2.2 rest).2.2) := by
  rw [processGChildren]
  simp [hg]

/-! ## Claim theorems -/

/-- Claim C3: for every badge with native dimensions `badgeW × badgeH`, the
final placement scale equals
`min((viewBoxSize × 0.375) / badgeW, (viewBoxSize × 0.375) / badgeH)`
multiplied by the user scale factor. -/
theorem c3_final_scale (b : String) (vbs xOff yOff us w h : ℚ)
    (hw : (computeBadgeDims b).badgeW = some w) (hh : (computeBadgeDims b).badgeH = some h)
    (hw0 : 0 < w) (hh0 : 0 < h) :
    (computeBadgePlacement b vbs xOff yOff us).scale
      = some (min (vbs * (3/8) / w) (vbs * (3/8) / h) * us) :=
  placementScale_eq b vbs xOff yOff us w h hw hh hw0 hh0

/-- Witness for C3: a 16×16 badge on a 16-unit canvas with user scale 2. -/
theorem c3_final_scale_witness :
    (computeBadgeDims badgeFix).badgeW = some 16 ∧ (0 : ℚ) < 16 ∧
    (computeBadgePlacement badgeFix 16 0 0 2).scale
      = some (min ((16 : ℚ) * (3/8) / 16) ((16 : ℚ) * (3/8) / 16) * 2) :=
  ⟨by rw [dims_badgeFix], by norm_num,
    c3_final_scale badgeFix 16 0 0 2 16 16 (by rw [dims_badgeFix]) (by rw [dims_badgeFix])
      (by norm_num) (by norm_num)⟩

/-- Counterexample to C4 as stated: the placement has no anchor parameter;
for the anchor fraction `(0, 0)` (one of the nine named anchors) the claimed
formula gives `tx = 0`, while the code always places the badge bottom-right
(`tx = 10` here). -/
theorem c4_counterexample :
    ((0 : ℚ), (0 : ℚ)) ∈ specAnchorFractions ∧
    (computeBadgePlacement badgeFix 16 0 0 1).tx ≠
      some ((0 : ℚ) * 16 - 0 * (16 * (16 * (3/8) / 16 * 1)) - 0 * (16 * (3/8) / 16 * 1) + 0) := by
  constructor
  · simp [specAnchorFractions]
  · have htx : (computeBadgePlacement badgeFix 16 0 0 1).tx = some 10 := by
      have hsc := placementScale_eq badgeFix 16 0 0 1 16 16
        (by rw [dims_badgeFix]) (by rw [dims_badgeFix]) (by norm_num) (by norm_num)
      have := placementTx_eq badgeFix 16 0 0 1 0 16 (min ((16:ℚ) * (3/8) / 16) ((16:ℚ) * (3/8) / 16) * 1)
        (by rw [dims_badgeFix]) (by rw [dims_badgeFix]) hsc
      rw [this]
      norm_num
    rw [htx]
    intro hcontra
    rw [Option.some.injEq] at hcontra
    norm_num at hcontra

/-- Claim C4, amended: the code supports only the bottom-right anchor
`(ax, ay) = (1, 1)` (there is no anchor parameter), and for it the
translation satisfies `tx = 1·canvas − 1·scaledWidth − minX·scale + xOffset`
and symmetrically for `ty`. -/
theorem c4_bottom_right_alignment (b : String) (vbs xOff yOff us mx my w h : ℚ)
    (hmx : (computeBadgeDims b).minX = some mx) (hmy : (computeBadgeDims b).minY = some my)
    (hw : (computeBadgeDims b).badgeW = some w) (hh : (computeBadgeDims b).badgeH = some h)
    (hw0 : 0 < w) (hh0 : 0 < h) :
    (computeBadgePlacement b vbs xOff yOff us).scale
        = some (min (vbs * (3/8) / w) (vbs * (3/8) / h) * us) ∧
    (computeBadgePlacement b vbs xOff yOff us).tx
        = some (1 * vbs - 1 * (w * (min (vbs * (3/8) / w) (vbs * (3/8) / h) * us))
            - mx * (min (vbs * (3/8) / w) (vbs * (3/8) / h) * us) + xOff) ∧
    (computeBadgePlacement b vbs xOff yOff us).ty
        = some (1 * vbs - 1 * (h * (min (vbs * (3/8) / w) (vbs * (3/8) / h) * us))
            - my * (min (vbs * (3/8) / w) (vbs * (3/8) / h) * us) + yOff) := by
  have hsc := placementScale_eq b vbs xOff yOff us w h hw hh hw0 hh0
  refine ⟨hsc, ?_, ?_⟩
  · rw [placementTx_eq b vbs xOff yOff us mx w _ hmx hw hsc]
    rw [Option.some.injEq]
    ring
  · rw [placementTy_eq b vbs xOff yOff us my h _ hmy hh hsc]
    rw [Option.some.injEq]
    ring

/-- Witness for the amended C4: the bottom-right formula at a concrete
16×16 badge. -/
theorem c4_bottom_right_alignment_witness :
    (computeBadgeDims badgeFix).minX = some 0 ∧ (0 : ℚ) < 16 ∧
    (computeBadgePlacement badgeFix 16 3 4 1).tx
      = some (1 * 16 - 1 * (16 * (min ((16:ℚ) * (3/8) / 16) ((16:ℚ) * (3/8) / 16) * 1))
          - 0 * (min ((16:ℚ) * (3/8) / 16) ((16:ℚ) * (3/8) / 16) * 1) + 3) ∧
    (computeBadgePlacement badgeFix 16 3 4 1).ty
      = some (1 * 16 - 1 * (16 * (min ((16:ℚ) * (3/8) / 16) ((16:ℚ) * (3/8) / 16) * 1))
          - 0 * (min ((16:ℚ) * (3/8) / 16) ((16:ℚ) * (3/8) / 16) * 1) + 4) := by
  have h := c4_bottom_right_alignment badgeFix 16 3 4 1 0 0 16 16
    (by rw [dims_badgeFix]) (by rw [dims_badgeFix]) (by rw [dims_badgeFix])
    (by rw [dims_badgeFix]) (by norm_num) (by norm_num)
  exact ⟨by rw [dims_badgeFix], by norm_num, h.2.1, h.2.2⟩

/-- Claim C5: native badge dimensions come from the declared viewBox
attribute; when no viewBox attribute matches, the explicit width/height
attributes are used, and each dimension defaults to 16 when its attribute is
also absent. -/
theorem c5_dims_selection (b : String) :
    (∀ vb x y w h,
      matchViewBoxAttr b.data = some vb →
      (splitSepRuns (trimWs vb)).map jsNumberTok = [some x, some y, some w, some h] →
      0 < w → 0 < h →
      computeBadgeDims b = ⟨some x, some y, some w, some h⟩) ∧
    (matchViewBoxAttr b.data = none →
      (computeBadgeDims b).minX = some 0 ∧ (computeBadgeDims b).minY = some 0 ∧
      (∀ ws, matchWidthAttr b.data = some ws → (computeBadgeDims b).badgeW = jsParseFloatQ ws) ∧
      (matchWidthAttr b.data = none → (computeBadgeDims b).badgeW = some 16) ∧
      (∀ hs, matchHeightAttr b.data = some hs → (computeBadgeDims b).badgeH = jsParseFloatQ hs) ∧
      (matchHeightAttr b.data = none → (computeBadgeDims b).badgeH = some 16)) := by
  constructor
  · intro vb x y w h h1 h2 hw hh
    unfold computeBadgeDims
    rw [h1]
    simp only [h2]
    norm_num [jgtZero, hw, hh]
  · intro h1
    unfold computeBadgeDims
    rw [h1]
    refine ⟨rfl, rfl, ?_, ?_, ?_, ?_⟩
    · intro ws hws
      simp [hws]
    · intro hws
      simp [hws]
    · intro hs hhs
      simp [hhs]
    · intro hhs
      simp [hhs]

/-- Witness for C5: all three selection cases at concrete badges. -/
theorem c5_dims_selection_witness :
    computeBadgeDims badgeFix = ⟨some 0, some 0, some 16, some 16⟩ ∧
    (computeBadgeDims badgeNoVB).badgeW = jsParseFloatQ "8".data ∧
    (computeBadgeDims badgeBare).badgeW = some 16 ∧
    (computeBadgeDims badgeBare).badgeH = some 16 := by
  refine ⟨(c5_dims_selection badgeFix).1 ("0 0 16 16".data) 0 0 16 16 (by decide) ?_
      (by norm_num) (by norm_num),
    ((c5_dims_selection badgeNoVB).2 (by decide)).2.2.1 ("8".data) (by decide),
    ((c5_dims_selection badgeBare).2 (by decide)).2.2.2.1 (by decide),
    ((c5_dims_selection badgeBare).2 (by decide)).2.2.2.2.2 (by decide)⟩
  simp +decide [splitSepRuns, splitRunsAux, trimWs, jsNumberTok, natOfDigits,
    isWsChar, isSepChar]

/-- Counterexample to C9 as stated: `badgeEmptyVB` contains a (malformed)
viewBox attribute with an empty value, yet the code falls through to the
width/height attributes and returns 8×8 instead of keeping the 16×16
default. -/
theorem c9_counterexample :
    hasSubList ("viewBox=\"\"".data) badgeEmptyVB.data = true ∧
    matchWidthAttr badgeEmptyVB.data = some ("8".data) ∧
    computeBadgeDims badgeEmptyVB = ⟨some 0, some 0, some 8, some 8⟩ ∧
    computeBadgeDims badgeEmptyVB ≠ defaultDims := by
  refine ⟨by decide, by decide, dims_badgeEmptyVB, ?_⟩
  rw [dims_badgeEmptyVB]
  intro hcontra
  rw [defaultDims, Dims.mk.injEq] at hcontra
  have := hcontra.2.2.1
  rw [Option.some.injEq] at this
  norm_num at this

/-- Claim C9, amended: when the viewBox regex matches (the attribute has a
nonempty value) but the value is malformed — not exactly four numbers, or a
non-positive width or height — the default 16×16 dimensions are kept and the
width/height attributes are never consulted; whenever the regex matches, the
result depends only on the matched value; the width/height fallback applies
exactly when the regex finds no match (in particular, an empty-valued viewBox
attribute falls through to the width/height attributes). -/
theorem c9_malformed_viewbox (b : String) :
    (∀ vb, matchViewBoxAttr b.data = some vb →
      ¬ (((splitSepRuns (trimWs vb)).map jsNumberTok).length = 4 ∧
          jgtZero (((splitSepRuns (trimWs vb)).map jsNumberTok).getD 2 none) = true ∧
          jgtZero (((splitSepRuns (trimWs vb)).map jsNumberTok).getD 3 none) = true) →
      computeBadgeDims b = defaultDims) ∧
    (∀ vb, matchViewBoxAttr b.data = some vb →
      (computeBadgeDims b = defaultDims ∨
        computeBadgeDims b = ⟨((splitSepRuns (trimWs vb)).map jsNumberTok).getD 0 none,
          ((splitSepRuns (trimWs vb)).map jsNumberTok).getD 1 none,
          ((splitSepRuns (trimWs vb)).map jsNumberTok).getD 2 none,
          ((splitSepRuns (trimWs vb)).map jsNumberTok).getD 3 none⟩)) := by
  constructor
  · intro vb h1 hbad
    unfold computeBadgeDims
    rw [h1]
    dsimp only
    by_cases hlen : ((splitSepRuns (trimWs vb)).map jsNumberTok).length = 4
    · rw [if_pos hlen]
      by_cases hpos : jgtZero (((splitSepRuns (trimWs vb)).map jsNumberTok).getD 2 none) &&
          jgtZero (((splitSepRuns (trimWs vb)).map jsNumberTok).getD 3 none)
      · exact absurd ⟨hlen, by simpa using hpos⟩ hbad
      · rw [if_neg hpos]
    · rw [if_neg hlen]
  · intro vb h1
    unfold computeBadgeDims
    rw [h1]
    dsimp only
    by_cases hlen : ((splitSepRuns (trimWs vb)).map jsNumberTok).length = 4
    · rw [if_pos hlen]
      by_cases hpos : jgtZero (((splitSepRuns (trimWs vb)).map jsNumberTok).getD 2 none) &&
          jgtZero (((splitSepRuns (trimWs vb)).map jsNumberTok).getD 3 none)
      · rw [if_pos hpos]
        right
        rfl
      · rw [if_neg hpos]
        left
        rfl
    · rw [if_neg hlen]
      left
      rfl

/-- Witness for the amended C9: a three-number viewBox keeps the defaults
even though width/height attributes are present. -/
theorem c9_malformed_viewbox_witness :
    matchViewBoxAttr badgeThreeVB.data = some ("0 0 16".data) ∧
    matchWidthAttr badgeThreeVB.data = some ("8".data) ∧
    computeBadgeDims badgeThreeVB = defaultDims := by
  refine ⟨by decide, by decide,
    (c9_malformed_viewbox badgeThreeVB).1 ("0 0 16".data) (by decide) ?_⟩
  intro hcontra
  have hlen := hcontra.1
  simp +decide [splitSepRuns, splitRunsAux, trimWs, isWsChar, isSepChar] at hlen

/-- Claim C8: applying zero badges is the identity on the markup, in both
the full engine and the clipPath fallback: when the modifier key is absent,
empty, `none` or unknown, when no custom badge markup is supplied, and when
the badge has no inner content. -/
theorem c8_zero_badges_identity
    (notchOf : String → JsNum → JsNum → JsNum → ℚ → Option PPath)
    (restProcess : String → Placement → PPath → String)
    (fmt fmt3 fmt4 : JsNum → String) (svg : String) (vbs : ℚ) (o : Opts) :
    (applyModifier notchOf restProcess svg none vbs o = svg ∧
      applyModifierClipPath fmt fmt3 fmt4 svg none vbs o = svg) ∧
    (∀ k, k = "" ∨ k = "none" ∨ k ∉ MODIFIERS_KEYS →
      applyModifier notchOf restProcess svg (some k) vbs o = svg ∧
      applyModifierClipPath fmt fmt3 fmt4 svg (some k) vbs o = svg) ∧
    (o.customBadgeSvg = none → ∀ key,
      applyModifier notchOf restProcess svg key vbs o = svg ∧
      applyModifierClipPath fmt fmt3 fmt4 svg key vbs o = svg) ∧
    (∀ b, o.customBadgeSvg = some b → extractInner b = "" → ∀ key,
      applyModifier notchOf restProcess svg key vbs o = svg ∧
      applyModifierClipPath fmt fmt3 fmt4 svg key vbs o = svg) := by
  refine ⟨⟨rfl, rfl⟩, ?_, ?_, ?_⟩
  · intro k hk
    rcases hk with hk | hk | hk
    · subst hk
      exact ⟨rfl, rfl⟩
    · subst hk
      exact ⟨rfl, rfl⟩
    · by_cases h0 : k = ""
      · subst h0
        exact ⟨rfl, rfl⟩
      · by_cases h1 : k = "none"
        · subst h1
          exact ⟨rfl, rfl⟩
        · constructor <;>
            simp [applyModifier, applyModifierClipPath, h0, h1, hk]
  · intro hnone key
    cases key with
    | none => exact ⟨rfl, rfl⟩
    | some k =>
      constructor <;>
        · simp only [applyModifier, applyModifierClipPath, hnone]
          split_ifs <;> rfl
  · intro b hb hinner key
    cases key with
    | none => exact ⟨rfl, rfl⟩
    | some k =>
      constructor <;>
        · simp only [applyModifier, applyModifierClipPath, hb]
          split_ifs with h1 h2 h3 h4 h5 <;>
            simp_all [computeBadgePlacement]

/-- Witness for C8: an unknown key, a missing badge and an inner-free badge
each leave a concrete document unchanged under both engines. -/
theorem c8_zero_badges_identity_witness :
    applyModifier (fun _ _ _ _ _ => some notch0) (fun s _ _ => s ++ "X")
        svgDoc (some "zzz") 16 (optsOf badgeFix) = svgDoc ∧
    applyModifierClipPath fmt0 fmt0 fmt0 svgDoc (some "zzz") 16 (optsOf badgeFix) = svgDoc ∧
    applyModifier (fun _ _ _ _ _ => some notch0) (fun s _ _ => s ++ "X")
        svgDoc (some "custom") 16 optsEmpty = svgDoc ∧
    applyModifier (fun _ _ _ _ _ => some notch0) (fun s _ _ => s ++ "X")
        svgDoc (some "custom") 16 (optsOf badgeNoInner) = svgDoc := by
  have h1 := (c8_zero_badges_identity (fun _ _ _ _ _ => some notch0) (fun s _ _ => s ++ "X")
    fmt0 fmt0 fmt0 svgDoc 16 (optsOf badgeFix)).2.1 "zzz" (Or.inr (Or.inr (by decide)))
  have h2 := (c8_zero_badges_identity (fun _ _ _ _ _ => some notch0) (fun s _ _ => s ++ "X")
    fmt0 fmt0 fmt0 svgDoc 16 optsEmpty).2.2.1 rfl (some "custom")
  have h3 := (c8_zero_badges_identity (fun _ _ _ _ _ => some notch0) (fun s _ _ => s ++ "X")
    fmt0 fmt0 fmt0 svgDoc 16 (optsOf badgeNoInner)).2.2.2 badgeNoInner rfl (by decide)
    (some "custom")
  exact ⟨h1.1, h1.2, h2.1, h3.1⟩

/-- Claim C2: without a boolean-geometry capability, `applyModifierClipPath`
wraps the whole icon in one clip whose keep region is the canvas rectangle
minus the badge's gap-expanded bounding rectangle (the native box scaled and
translated per the placement, expanded by `gap` on every side), declares it
with evenodd winding, and appends the badge markup after the clipped
group. -/
theorem c2_clip_fallback
    (fmt fmt3 fmt4 : JsNum → String) (svg : String) (o : Opts)
    (vbs mx my w h sc txv tyv gap : ℚ) (b : String) (pl : Placement)
    (hb : o.customBadgeSvg = some b) (hbne : b ≠ "")
    (hpl : pl = computeBadgePlacement b vbs (o.badgeXOffset.getD 0) (o.badgeYOffset.getD 0)
        (o.badgeScale.getD 1))
    (hgap : gap = o.badgeGap.getD (1/2))
    (hmx : pl.minX = some mx) (hmy : pl.minY = some my)
    (hw : pl.badgeW = some w) (hh : pl.badgeH = some h)
    (hsc : pl.scale = some sc) (htx : pl.tx = some txv) (hty : pl.ty = some tyv)
    (hinner : pl.inner ≠ "")
    (p m r : List Char) (hsplit : splitAtSvgOpen svg.data = some (p, m, r))
    (u v : List Char)
    (hclose : splitFirstSub ("</svg>".data) (p ++ m ++ (clipIns fmt vbs pl gap).data ++ r)
        = some (u, v)) :
    clipKeepRect pl gap = ⟨some (txv + mx * sc - gap), some (tyv + my * sc - gap),
        some (w * sc + gap * 2), some (h * sc + gap * 2)⟩ ∧
    (∃ mid, m = "<svg".data ++ mid ++ ['>']) ∧
    svg.data = p ++ m ++ r ∧
    replaceSvgOpen svg (clipIns fmt vbs pl gap)
      = String.mk (p ++ m ++ (clipIns fmt vbs pl gap).data ++ r) ∧
    p ++ m ++ (clipIns fmt vbs pl gap).data ++ r = u ++ "</svg>".data ++ v ∧
    clipIns fmt vbs pl gap
      = clipDefStr (keepPathStr fmt vbs (clipKeepRect pl gap)) ++ "<g clip-path=\"url(#nc)\">" ∧
    clipDefStr (keepPathStr fmt vbs (clipKeepRect pl gap))
      = "<defs><clipPath id=\"nc\"><path d=\"" ++ keepPathStr fmt vbs (clipKeepRect pl gap)
          ++ "\" fill-rule=\"evenodd\"/></clipPath></defs>" ∧
    applyModifierClipPath fmt fmt3 fmt4 svg (some "custom") vbs o
      = String.mk (u ++ ("</g>" ++ badgeMarkupStr fmt3 fmt4 pl ++ "</svg>").data ++ v) := by
  have hrect : clipKeepRect pl gap = ⟨some (txv + mx * sc - gap), some (tyv + my * sc - gap),
      some (w * sc + gap * 2), some (h * sc + gap * 2)⟩ := by
    unfold clipKeepRect
    rw [hmx, hmy, hw, hh, hsc, htx, hty]
    simp [jadd, jsub, jmul]
  have hcat : svg.data = p ++ m ++ r :=
    scanSplit_eq tryOpenTagAt (fun l m1 r1 hx => (tryOpenTagAt_eq l m1 r1 hx).1)
      svg.data p m r hsplit
  have hmid : ∃ mid, m = "<svg".data ++ mid ++ ['>'] := by
    obtain ⟨s, hs⟩ := scanSplit_f tryOpenTagAt svg.data p m r hsplit
    exact (tryOpenTagAt_eq s m r hs).2
  have hrepl : replaceSvgOpen svg (clipIns fmt vbs pl gap)
      = String.mk (p ++ m ++ (clipIns fmt vbs pl gap).data ++ r) := by
    unfold replaceSvgOpen
    rw [hsplit]
  have hucat : p ++ m ++ (clipIns fmt vbs pl gap).data ++ r = u ++ "</svg>".data ++ v := by
    have := splitFirstSub_eq ("</svg>".data)
      (p ++ m ++ (clipIns fmt vbs pl gap).data ++ r) u v hclose
    simpa using this
  refine ⟨hrect, hmid, hcat, hrepl, hucat, rfl, rfl, ?_⟩
  unfold applyModifierClipPath
  rw [hb]
  dsimp only
  rw [if_neg (by decide : ¬ ((decide ("custom" = "") || decide ("custom" = "none")) = true))]
  rw [if_neg (by decide : ¬ "custom" ∉ MODIFIERS_KEYS)]
  rw [if_neg (by decide : ¬ "custom" ≠ "custom")]
  rw [if_neg hbne]
  rw [← hpl, ← hgap]
  rw [if_neg hinner]
  rw [hrepl]
  unfold replaceFirstStr
  dsimp only
  rw [hclose]

/-- Witness for C2: a concrete document and badge, evaluated with a trivial
formatting oracle. -/
theorem c2_clip_fallback_witness :
    splitAtSvgOpen svgDoc.data = some ([], "<svg a=\"1\">".data, "BODY</svg>".data) ∧
    (computeBadgePlacement badgeFix 16 0 0 1).inner ≠ "" ∧
    clipKeepRect (computeBadgePlacement badgeFix 16 0 0 1) (1/2)
      = ⟨some (10 + 0 * (3/8) - 1/2), some (10 + 0 * (3/8) - 1/2),
         some (16 * (3/8) + 1/2 * 2), some (16 * (3/8) + 1/2 * 2)⟩ ∧
    applyModifierClipPath fmt0 fmt0 fmt0 svgDoc (some "custom") 16 (optsOf badgeFix)
      = String.mk (("<svg a=\"1\"><defs><clipPath id=\"nc\"><path d=\"M0 0H0V0H0Z M0 0H0V0H0Z\" fill-rule=\"evenodd\"/></clipPath></defs><g clip-path=\"url(#nc)\">BODY".data)
          ++ ("</g>" ++ badgeMarkupStr fmt0 fmt0 (computeBadgePlacement badgeFix 16 0 0 1)
              ++ "</svg>").data ++ []) := by
  have hmx : (computeBadgePlacement badgeFix 16 0 0 1).minX = some 0 := by
    show (computeBadgeDims badgeFix).minX = some 0
    rw [dims_badgeFix]
  have hmy : (computeBadgePlacement badgeFix 16 0 0 1).minY = some 0 := by
    show (computeBadgeDims badgeFix).minY = some 0
    rw [dims_badgeFix]
  have hw : (computeBadgePlacement badgeFix 16 0 0 1).badgeW = some 16 := by
    show (computeBadgeDims badgeFix).badgeW = some 16
    rw [dims_badgeFix]
  have hh : (computeBadgePlacement badgeFix 16 0 0 1).badgeH = some 16 := by
    show (computeBadgeDims badgeFix).badgeH = some 16
    rw [dims_badgeFix]
  have hw' : (computeBadgeDims badgeFix).badgeW = some 16 := by rw [dims_badgeFix]
  have hh' : (computeBadgeDims badgeFix).badgeH = some 16 := by rw [dims_badgeFix]
  have hsc : (computeBadgePlacement badgeFix 16 0 0 1).scale = some (3/8) := by
    rw [placementScale_eq badgeFix 16 0 0 1 16 16 hw' hh' (by norm_num) (by norm_num)]
    norm_num
  have htx : (computeBadgePlacement badgeFix 16 0 0 1).tx = some 10 := by
    rw [placementTx_eq badgeFix 16 0 0 1 0 16 (3/8) (by rw [dims_badgeFix]) hw' hsc]
    norm_num
  have hty : (computeBadgePlacement badgeFix 16 0 0 1).ty = some 10 := by
    rw [placementTy_eq badgeFix 16 0 0 1 0 16 (3/8) (by rw [dims_badgeFix]) hh' hsc]
    norm_num
  have h := c2_clip_fallback fmt0 fmt0 fmt0 svgDoc (optsOf badgeFix)
    16 0 0 16 16 (3/8) 10 10 (1/2) badgeFix
    (computeBadgePlacement badgeFix 16 0 0 1)
    rfl (by decide) rfl rfl hmx hmy hw hh hsc htx hty (by decide)
    [] ("<svg a=\"1\">".data) ("BODY</svg>".data) (by decide)
    ("<svg a=\"1\"><defs><clipPath id=\"nc\"><path d=\"M0 0H0V0H0Z M0 0H0V0H0Z\" fill-rule=\"evenodd\"/></clipPath></defs><g clip-path=\"url(#nc)\">BODY".data)
    [] (by decide)
  exact ⟨by decide, by decide, h.1, h.2.2.2.2.2.2.2⟩

/-- Counterexample to C7 as stated: the silhouette reduction is not the
pairwise tree reduction — on four shapes the linear loop builds
`((a∪b)∪c)∪d` while the tree reduction builds `(a∪b)∪(c∪d)`. -/
theorem c7_counterexample :
    uniteAll FreeU.node [FreeU.leaf 0, FreeU.leaf 1, FreeU.leaf 2, FreeU.leaf 3]
      ≠ treeUnite FreeU.node [FreeU.leaf 0, FreeU.leaf 1, FreeU.leaf 2, FreeU.leaf 3] := by
  decide

/-- Claim C7, amended: the Silhouette Builder reduces the collected path set
with a linear left-to-right fold of pairwise unions
(`(((p₀ ∪ p₁) ∪ p₂) … ∪ pₙ₋₁)`); the pairwise tree reduction `treeUnite`
exists only in the historical variant's circle-buffer offset helper and is
not the silhouette reduction. -/
theorem c7_linear_union {α : Type} (unite : α → α → α) (first : α) (rest : List α) :
    uniteAll unite (first :: rest) = some (rest.foldl unite first) := by
  unfold uniteAll
  induction rest generalizing first with
  | nil => rfl
  | cons x xs ih =>
    simp only [uniteAllGo, List.foldl_cons]
    exact ih (unite first x)

theorem copyStyleAttrs_eq (src e : Elem) :
    copyStyleAttrs src e =
      setIfCarry src "opacity" (setIfCarry src "clip-rule"
        (setIfCarry src "fill-rule" (setIfCarry src "fill" e))) := rfl

theorem setIfCarry_getAttr_same (src e : Elem) (a : String) :
    (setIfCarry src a e).getAttr a =
      (match carryAttr src a with
        | some v => some v
        | none => e.getAttr a) := by
  unfold setIfCarry carryAttr
  cases h : src.getAttr a with
  | none => rfl
  | some v =>
    dsimp only
    by_cases hv : v ≠ ""
    · rw [if_pos hv]
      simp [getAttr_setAttr, hv]
    · rw [if_neg hv]
      simp [hv]

theorem setIfCarry_getAttr_other (src e : Elem) (a a' : String) (h : a ≠ a') :
    (setIfCarry src a e).getAttr a' = e.getAttr a' := by
  unfold setIfCarry
  cases hsrc : src.getAttr a with
  | none => rfl
  | some v =>
    dsimp only
    by_cases hv : v ≠ ""
    · rw [if_pos hv, getAttr_setAttr, if_neg h]
    · rw [if_neg hv]

theorem emptyElem_getAttr (a : String) : (Elem.mk "path" [] []).getAttr a = none := rfl

theorem baseFill_getAttr (dd a : String) :
    ((Elem.mk "path" [] []).setAttr "d" dd).getAttr a
      = if "d" = a then some dd else none := by
  rw [getAttr_setAttr]
  by_cases h : "d" = a <;> simp [h, Elem.getAttr, lookupAttr]

/-- Counterexample to C6 as stated: on a fill-only path element whose
boolean result is simple (not compound), the emitted path element carries
over the source's `fill-rule` (and `clip-rule`) — the claim says those are
never carried and that a fill-rule is declared only for compound results. -/
theorem c6_counterexample :
    (processTopChild okGeom notch0 "K" ⟨false, []⟩ ruleEl).1.map (fun e => e.attrs)
      = [[("d", "D"), ("fill", "red"), ("fill-rule", "nonzero"),
          ("clip-rule", "evenodd"), ("opacity", "0.5")]] ∧
    ruleEl.getAttr "fill-rule" = some "nonzero" ∧
    (okGeom.subtractP ⟨"P", false⟩ notch0 = Except.ok ⟨"D", false⟩) ∧
    ((⟨"D", false⟩ : PPath).compound = false) := ⟨rfl, rfl, rfl, rfl⟩

/-- Claim C6, amended: an emitted fill path element carries the source's
`fill`, `fill-rule`, `clip-rule` and `opacity` attributes (when present and
nonempty) and never any stroke attribute; an emitted stroke-ring path
element carries no source style attribute, receiving only `fill` set to the
stroke colour; both declare `fill-rule` as `evenodd` exactly when the
boolean result is a compound path, overriding any carried fill-rule. -/
theorem c6_style_carry_over (src : Elem) (r : PPath) (sc : String) :
    (mkFillEl src r).getAttr "d" = some r.pathData ∧
    (mkFillEl src r).getAttr "fill" = carryAttr src "fill" ∧
    (mkFillEl src r).getAttr "opacity" = carryAttr src "opacity" ∧
    (mkFillEl src r).getAttr "clip-rule" = carryAttr src "clip-rule" ∧
    (mkFillEl src r).getAttr "fill-rule"
      = (if r.compound then some "evenodd" else carryAttr src "fill-rule") ∧
    (mkFillEl src r).getAttr "stroke" = none ∧
    (mkFillEl src r).getAttr "stroke-width" = none ∧
    (mkFillEl src r).getAttr "stroke-linecap" = none ∧
    (mkFillEl src r).getAttr "stroke-linejoin" = none ∧
    (mkFillEl src r).getAttr "stroke-dasharray" = none ∧
    (mkFillEl src r).getAttr "clip-path" = none ∧
    (mkStrokeEl sc r).getAttr "d" = some r.pathData ∧
    (mkStrokeEl sc r).getAttr "fill" = some sc ∧
    (mkStrokeEl sc r).getAttr "fill-rule"
      = (if r.compound then some "evenodd" else none) ∧
    (mkStrokeEl sc r).getAttr "opacity" = none ∧
    (mkStrokeEl sc r).getAttr "clip-rule" = none := by
  have hcarry : ∀ c : Option String,
      (match c with | some v => some v | none => (none : Option String)) = c := by
    intro c
    cases c <;> rfl
  unfold mkFillEl mkStrokeEl
  dsimp only
  rw [copyStyleAttrs_eq]
  by_cases hc : r.compound <;>
    simp only [hc, if_true, if_false, Bool.false_eq_true, ite_true, ite_false,
      getAttr_setAttr, setIfCarry_getAttr_same, setIfCarry_getAttr_other,
      baseFill_getAttr] <;>
    refine ⟨?_, ?_, ?_, ?_, ?_, ?_, ?_, ?_, ?_, ?_, ?_, ?_, ?_, ?_, ?_, ?_⟩ <;>
    simp +decide [setIfCarry_getAttr_same, setIfCarry_getAttr_other, baseFill_getAttr,
      getAttr_setAttr, hcarry, emptyElem_getAttr]

theorem stOk_processAll (n : Nat) :
    (∀ (G : GeomOps) (notch : PPath) (keepD : String) (st : ClipSt) (g : Elem),
      sizeOf g ≤ n → stOk keepD st → stOk keepD (processGroup G notch keepD st g).2) ∧
    (∀ (G : GeomOps) (notch : PPath) (keepD : String) (t : Option String) (st : ClipSt)
        (l : List Elem),
      sizeOf l ≤ n → stOk keepD st →
      stOk keepD (processGChildren G notch keepD t st l).2.2) := by
  induction n using Nat.strong_induction_on with
  | _ n ih =>
    constructor
    · intro G notch keepD st g hsz h
      rw [processGroup_eq]
      dsimp only
      have hlt : sizeOf g.children < n := by
        have : sizeOf g.children < sizeOf g := by
          cases g
          simp [Elem.children]
        omega
      exact (ih (sizeOf g.children) hlt).2 G notch keepD (g.getAttr "transform") st
        g.children le_rfl h
    · intro G notch keepD t st l hsz h
      cases l with
      | nil =>
        rw [processGChildren_nil]
        exact h
      | cons el rest =>
        have hel : sizeOf el < n := by
          have : sizeOf el < sizeOf (el :: rest) := by
            simp only [List.cons.sizeOf_spec]
            omega
          omega
        have hrest : sizeOf rest < n := by
          have : sizeOf rest < sizeOf (el :: rest) := by
            simp only [List.cons.sizeOf_spec]
            omega
          omega
        by_cases hg : lowerStr el.tag = "g"
        · rw [processGChildren_cons_g G notch keepD t st el rest hg]
          dsimp only
          exact (ih (sizeOf rest) hrest).2 G notch keepD t _ rest le_rfl
            ((ih (sizeOf el) hel).1 G notch keepD st el le_rfl h)
        · rw [processGChildren_cons_leaf G notch keepD t st el rest hg]
          dsimp only
          exact (ih (sizeOf rest) hrest).2 G notch keepD t _ rest le_rfl
            (stOk_leafStep G notch t el h)

theorem stOk_processTopChild (G : GeomOps) (notch : PPath) (keepD : String)
    (st : ClipSt) (el : Elem) (h : stOk keepD st) :
    stOk keepD (processTopChild G notch keepD st el).2 := by
  unfold processTopChild
  by_cases hg : lowerStr el.tag = "g"
  · rw [if_pos hg]
    exact (stOk_processAll (sizeOf el)).1 G notch keepD st el le_rfl h
  · rw [if_neg hg]
    cases hpl : processLeafCore G notch el none with
    | none => exact h
    | some res =>
      cases res with
      | ok pr => exact h
      | error e => exact stOk_ensure h

theorem stOk_processTopList (G : GeomOps) (notch : PPath) (keepD : String) :
    ∀ (l : List Elem) (st : ClipSt), stOk keepD st →
      stOk keepD (processTopList G notch keepD st l).2
  | [], st, h => h
  | el :: rest, st, h => by
    simp only [processTopList]
    exact stOk_processTopList G notch keepD rest _ (stOk_processTopChild G notch keepD st el h)

theorem catchFallback_clip (el : Elem) (t : Option String) (b : Bool) :
    (catchFallback el t b).getAttr "clip-path" = some "url(#nc)" := by
  unfold catchFallback
  cases b with
  | false => simp [getAttr_setAttr]
  | true =>
    cases t with
    | none => simp [getAttr_setAttr]
    | some gt =>
      dsimp only
      by_cases hgt : gt ≠ ""
      · rw [if_pos hgt]
        cases hex : (el.setAttr "clip-path" "url(#nc)").getAttr "transform" with
        | none => simp +decide [getAttr_setAttr]
        | some ex =>
          by_cases hx : ex ≠ "" <;> simp +decide [hx, getAttr_setAttr]
      · rw [if_neg hgt]
        simp [getAttr_setAttr]

/-- Claim C10: within one run, at most one clipPath definition is added —
the `nc` definition — no matter how many elements fall back to clipping, and
every element the run clips references that definition through
`clip-path="url(#nc)"`. -/
theorem c10_single_clip_definition (G : GeomOps) (notch : PPath) (keepD : String)
    (children : List Elem) :
    ((processSvgChildren G notch keepD children).2.added = [] ∨
      (processSvgChildren G notch keepD children).2.added = [clipDefElem keepD]) ∧
    (clipDefElem keepD).tag = "clipPath" ∧
    (clipDefElem keepD).getAttr "id" = some "nc" ∧
    (∀ (el : Elem) (t : Option String) (b : Bool),
      (catchFallback el t b).getAttr "clip-path" = some "url(#nc)") := by
  refine ⟨?_, rfl, rfl, catchFallback_clip⟩
  have h := stOk_processTopList G notch keepD children ⟨false, []⟩ (stOk_init keepD)
  unfold stOk at h
  unfold processSvgChildren
  cases hflag : (processTopList G notch keepD ⟨false, []⟩ children).2.clipAdded
  · left
    rw [h, hflag]
    rfl
  · right
    rw [h, hflag]
    rfl

theorem leafCore_ne_g (G : GeomOps) (notch : PPath) (el : Elem) (t : Option String)
    (x : Except Unit (Option Elem × Option Elem))
    (h : processLeafCore G notch el t = some x) : ¬ lowerStr el.tag = "g" := by
  intro hg
  unfold processLeafCore svgElToPaperPath at h
  rw [hg] at h
  simp +decide at h

/-- Claim C1, amended: when boolean subtraction (or stroke offsetting) fails
on a base-icon primitive, the compositor catches the failure locally: the
element is kept in the output with `clip-path="url(#nc)"` added (referencing
the precomputed keep region, canvas rectangle minus notch); a top-level
element is otherwise unchanged, while an element inside a group additionally
has the group's transform merged into its own transform attribute and is
moved out of the group; the remaining elements are still processed and,
provided the keep-region precomputation itself succeeded, no per-element
failure reaches the caller. -/
theorem c1_catch_clip_fallback :
    (∀ (G : GeomOps) (notch : PPath) (keepD : String) (st : ClipSt) (el : Elem),
      processLeafCore G notch el none = some (Except.error ()) →
      processTopChild G notch keepD st el
        = ([el.setAttr "clip-path" "url(#nc)"], ensureClipDef keepD st)) ∧
    (∀ (G : GeomOps) (notch : PPath) (keepD : String) (t : Option String) (st : ClipSt)
        (el : Elem) (rest : List Elem),
      processLeafCore G notch el t = some (Except.error ()) →
      processGChildren G notch keepD t st (el :: rest)
        = (catchFallback el t true ::
            (processGChildren G notch keepD t (ensureClipDef keepD st) rest).1,
           (processGChildren G notch keepD t (ensureClipDef keepD st) rest).2.1,
           (processGChildren G notch keepD t (ensureClipDef keepD st) rest).2.2)) ∧
    (∀ (G : GeomOps) (s : ℚ) (notch : PPath) (children : List Elem) (k : PPath),
      G.subtractP (G.rectPath 0 0 s s) notch = Except.ok k →
      applyModifierDom G s notch children
        = Except.ok (processSvgChildren G notch k.pathData children)) := by
  refine ⟨?_, ?_, ?_⟩
  · intro G notch keepD st el h
    unfold processTopChild
    rw [if_neg (leafCore_ne_g G notch el none _ h), h]
  · intro G notch keepD t st el rest h
    rw [processGChildren_cons_leaf G notch keepD t st el rest
      (leafCore_ne_g G notch el t _ h)]
    unfold leafStepInG
    rw [h]
    dsimp only
    simp
  · intro G s notch children k h
    unfold applyModifierDom computeKeepPathData
    rw [h]
    rfl

/-- Witness for the amended C1: a failing subtraction on a top-level circle
yields exactly the clip-path fallback, and the run's DOM phase returns
normally. -/
theorem c1_catch_clip_fallback_witness :
    processLeafCore failGeom notch0 circleEl none = some (Except.error ()) ∧
    processTopChild failGeom notch0 "K" ⟨false, []⟩ circleEl
      = ([circleEl.setAttr "clip-path" "url(#nc)"], ensureClipDef "K" ⟨false, []⟩) ∧
    failGeom.subtractP (failGeom.rectPath 0 0 16 16) notch0 = Except.ok ⟨"K", false⟩ ∧
    applyModifierDom failGeom 16 notch0 [circleEl]
      = Except.ok (processSvgChildren failGeom notch0 "K" [circleEl]) :=
  ⟨rfl, c1_catch_clip_fallback.1 failGeom notch0 "K" ⟨false, []⟩ circleEl rfl, rfl,
    c1_catch_clip_fallback.2.2 failGeom 16 notch0 [circleEl] ⟨"K", false⟩ rfl⟩

/-- Counterexample to C1 as stated: for a primitive inside a transformed
group, the catch handler changes more than the clip-path attribute — the
output element also carries the group's transform (the original circle had
no transform attribute). -/
theorem c1_counterexample :
    (processSvgChildren failGeom notch0 "K" [gEl]).1.map (fun e => (e.tag, e.attrs))
      = [("circle", [("cx", "8"), ("cy", "8"), ("r", "6"), ("fill", "red"),
          ("clip-path", "url(#nc)"), ("transform", "translate(1 2)")])] ∧
    circleEl.getAttr "transform" = none ∧
    gEl.children = [circleEl] := by
  have hstep : processGChildren failGeom notch0 "K" (some "translate(1 2)")
      ⟨false, []⟩ [circleEl]
      = ([catchFallback circleEl (some "translate(1 2)") true], [],
         ensureClipDef "K" ⟨false, []⟩) := by
    rw [processGChildren_cons_leaf failGeom notch0 "K" (some "translate(1 2)")
      ⟨false, []⟩ circleEl [] (by decide)]
    rw [processGChildren_nil]
    rfl
  have hgroup : processGroup failGeom notch0 "K" ⟨false, []⟩ gEl
      = ([catchFallback circleEl (some "translate(1 2)") true],
         ensureClipDef "K" ⟨false, []⟩) := by
    rw [processGroup_eq]
    rw [show gEl.getAttr "transform" = some "translate(1 2)" from rfl,
      show gEl.children = [circleEl] from rfl, hstep]
    rfl
  refine ⟨?_, rfl, rfl⟩
  unfold processSvgChildren processTopList processTopChild
  rw [if_pos (by decide : lowerStr gEl.tag = "g")]
  rw [hgroup]
  rfl

end IconComposer
